import Mathlib

/-!
Verification of the SDR seal-preparation task (`tasks/seal/task_sdr.go`).

The development shallowly embeds the task's pure logic:
* the piece-layout and commitment-aggregation computation of `Do`
  (lines 104-155 of the source),
* the ticket resolution of `getTicket`,
* the control flow of `Do` around its database reads and writes, and
* the `CanAccept` admission policy.

Machine integers are modelled as `Nat`/`Int` with explicit reduction
modulo `2 ^ 64` exactly where Go unsigned arithmetic wraps.  External
collaborators (chain API, database, the SDR encoder, the CID parser, the
commitment aggregator) are modelled as explicit parameters or as opaque
constructors of the `Cid` type, so that theorems about the plumbing do
not depend on cryptographic internals.
-/

set_option maxRecDepth 16384

/-- Width of the Go `uint64` type; Go unsigned arithmetic wraps modulo this value. -/
def U64 : Nat := 2 ^ 64

/-- Go conversion of a signed 64-bit integer to `uint64` (two's-complement wrap). -/
def u64 (x : Int) : Nat := (x % (U64 : Int)).toNat

/-- Method `abi.UnpaddedPieceSize.Padded()` from go-state-types: `s + s/127`. -/
def paddedOf (u : Nat) : Nat := u + u / 127

/-- Method `abi.PaddedPieceSize.Unpadded()` from go-state-types: `s - s/128`. -/
def unpaddedOf (p : Nat) : Nat := p - p / 128

/-- Fuelled worker for `bitsDecomp`; the fuel keeps the recursion
structural so that the definition reduces inside the kernel. -/
def bitsDecompAux : Nat → Nat → List Nat
  | 0, _ => []
  | fuel + 1, n =>
    if n = 0 then []
    else if n % 2 = 1 then 1 :: (bitsDecompAux fuel (n / 2)).map (fun x => 2 * x)
    else (bitsDecompAux fuel (n / 2)).map (fun x => 2 * x)

/-- Binary decomposition of a number into its set bits, as the list of the
corresponding powers of two in ascending order.  This is the
trailing-zeros extraction loop shared by the padding and filler
computations (`bits.TrailingZeros64` driven). -/
def bitsDecomp (n : Nat) : List Nat := bitsDecompAux n n

theorem sum_map_mul (c : Nat) (l : List Nat) :
    (l.map (fun x => c * x)).sum = c * l.sum := by
  induction l with
  | nil => simp
  | cons a t ih => simp [ih, Nat.mul_add]

theorem bitsDecompAux_sum : ∀ fuel n, n ≤ fuel → (bitsDecompAux fuel n).sum = n := by
  intro fuel
  induction fuel with
  | zero => intro n hn; interval_cases n; rfl
  | succ fuel ih =>
    intro n hn
    rw [bitsDecompAux]
    split
    · next h0 => simp [h0]
    · next hne =>
      have hlt : n / 2 ≤ fuel := by omega
      split
      · next hodd =>
        simp only [List.sum_cons, sum_map_mul, ih _ hlt]
        omega
      · next heven =>
        simp only [sum_map_mul, ih _ hlt]
        omega

theorem bitsDecomp_sum (n : Nat) : (bitsDecomp n).sum = n :=
  bitsDecompAux_sum n n (le_refl n)

/-- Commitments (CIDs).  These are opaque digests; the embedding keeps them
symbolic: `zero` is the well-known zero-piece commitment for a given
unpadded size (`zerocomm.ZeroPieceCommitment`), `raw` is a CID parsed from
a database string, and `agg` is the result of the external aggregation
function `nonffi.GenerateUnsealedCID`, recorded together with its inputs. -/
inductive Cid where
  | zero : Nat → Cid
  | raw : String → Cid
  | agg : Int → List (Nat × Cid) → Cid

/-- Derived piece info (`abi.PieceInfo`): a padded size paired with a commitment. -/
abbrev PieceInfo := Nat × Cid

/-- Function `zerocomm.ZeroPieceCommitment` (external library, pure): the
well-known commitment of an all-zero piece of the given unpadded size. -/
def zeroPieceCommitment (u : Nat) : Cid := .zero u

/-- Function `nonffi.GenerateUnsealedCID` (external cryptographic library):
per the design it is treated as a pure aggregation function of the proof
type and the ordered piece-info sequence. -/
def generateUnsealedCID (rsp : Int) (infos : List PieceInfo) : Cid := .agg rsp infos

/-- Errors surfaced by the task: ordinary Go `error` values versus runtime
panics (nil-pointer dereference, index out of range, division by zero). -/
inductive GoErr where
  | goError : String → GoErr
  | goPanic : String → GoErr
deriving DecidableEq

/-- Row of `sectors_sdr_pipeline` selected by `Do` (sp_id, sector_number,
reg_seal_proof), all 64-bit database integers. -/
structure SectorRow where
  spId : Int
  sectorNumber : Int
  regSealProof : Int
deriving DecidableEq

/-- Row of `sectors_sdr_initial_pieces` selected by `Do`.  `dataRawSize`
is nullable in the schema, hence an `Option`; the Go code reads it through
a `*int64`. -/
structure PieceRow where
  pieceIndex : Int
  pieceCID : String
  pieceSize : Int
  dataRawSize : Option Int
deriving DecidableEq

/-- Modelled: the external CID parser (`cid.Parse` from go-cid).  Parsing
fails on malformed strings; the model lets exactly the empty string fail,
which keeps the fallible control path of the source without embedding the
multibase grammar. -/
def cidParse (s : String) : Except GoErr Cid :=
  if s = "" then .error (.goError "parsing piece cid: invalid cid")
  else .ok (.raw s)

/-- Function `ffiwrapper.GetRequiredPadding(oldLength, newPieceLength)`.
Modelled from the spec: the padding needed to align the running padded
offset `old` to the next piece's padded-size boundary, expressed as a list
of power-of-two filler blocks (ascending) together with their total.  The
arithmetic mirrors the Go `uint64` computation `-oldLength % newPieceLength`
followed by set-bit extraction; a zero piece size makes the Go modulus
panic. -/
def getRequiredPadding (old n : Nat) : Except GoErr (List Nat × Nat) :=
  if n = 0 then .error (.goPanic "runtime error: integer divide by zero")
  else
    let toFill := ((U64 - old) % U64) % n
    .ok (bitsDecomp toFill, (bitsDecomp toFill).sum)

/-- Modelled from the spec: `filler.FillersFromRem` (`lib/filler`, not under
the sources at hand) together with the remainder subtraction feeding it.
Per the design, the remaining unpadded space `sectorCapacity.unpadded() -
offset` is decomposed into power-of-two filler pieces (given ascending as
their unpadded sizes, each `127 * 2 ^ i`), and the step fails when the
remainder is not exactly representable, e.g. negative or not aligned to a
whole number of filler pieces.  The remainder is therefore taken as an
`Int` so that overflow of the layout is visible as a negative value. -/
def fillersFromRem (rem : Int) : Except GoErr (List Nat) :=
  if rem < 0 then
    .error (.goError "failed to calculate the final padding: negative remainder")
  else if 127 ∣ rem.toNat then
    .ok ((bitsDecomp (rem.toNat / 127)).map (fun b => 127 * b))
  else
    .error (.goError "failed to calculate the final padding: remainder not representable")

/-- Method `RegisteredSealProof.SectorSize()` from go-state-types: the five
supported sector sizes, repeated across the V1 / V1_1 / synthetic / NI
proof families (identifiers 0-19); anything else is an error. -/
def sectorSizeOf (p : Int) : Except GoErr Nat :=
  if 0 ≤ p ∧ p < 20 then
    match (p % 5).toNat with
    | 0 => .ok (2 ^ 11)
    | 1 => .ok (2 ^ 23)
    | 2 => .ok (2 ^ 29)
    | 3 => .ok (2 ^ 35)
    | _ => .ok (2 ^ 36)
  else .error (.goError "getting sector size: unsupported registered seal proof type")

/-- Piece-layout loop of `Do` (source lines 115-136).  Starting from the
running unpadded `offset`, each piece contributes its alignment fillers
(zero commitments) and then its own declared commitment; the offset is
advanced by the unpadded filler length and the piece's raw size, with Go
`uint64` wrapping made explicit.  A null `data_raw_size` is dereferenced
through a nil pointer, i.e. panics. -/
def layoutPieces : Nat → List PieceRow → Except GoErr (Nat × List PieceInfo)
  | off, [] => .ok (off, [])
  | off, p :: rest =>
    match cidParse p.pieceCID with
    | .error e => .error e
    | .ok c =>
      let n := u64 p.pieceSize
      match getRequiredPadding (paddedOf off % U64) n with
      | .error e => .error e
      | .ok (pads, padLength) =>
        let off1 := (off + unpaddedOf padLength) % U64
        match p.dataRawSize with
        | none => .error (.goPanic "runtime error: invalid memory address or nil pointer dereference")
        | some r =>
          let off2 := (off1 + u64 r) % U64
          match layoutPieces off2 rest with
          | .error e => .error e
          | .ok (offF, rinfos) =>
            .ok (offF, (pads.map (fun sz => (sz, zeroPieceCommitment (unpaddedOf sz)))) ++
              (n, c) :: rinfos)

/-- Commitment computation of `Do` (source lines 104-155): resolve the
sector size from the proof type, then either run the layout loop, append
the trailing fillers and aggregate, or—with no pieces—return the
well-known zero commitment of the whole sector. -/
def computeCommD (rsp : Int) (pieces : List PieceRow) : Except GoErr Cid :=
  match sectorSizeOf rsp with
  | .error e => .error e
  | .ok ssize =>
    if pieces.length > 0 then
      match layoutPieces 0 pieces with
      | .error e => .error e
      | .ok (off, infos) =>
        match fillersFromRem ((unpaddedOf ssize : Int) - (off : Int)) with
        | .error e => .error e
        | .ok fillers =>
          .ok (generateUnsealedCID rsp
            (infos ++ fillers.map (fun f => (paddedOf f, zeroPieceCommitment f))))
    else
      .ok (zeroPieceCommitment (unpaddedOf ssize))

/-- Domain separation tags of go-state-types `crypto`; `getTicket` uses
`sealRandomness`. -/
inductive Tag where
  | ticketProduction
  | electionProofProduction
  | winningPoStChallengeSeed
  | windowedPoStChallengeSeed
  | sealRandomness
  | interactiveSealChallengeSeed
  | windowedPoStDeadlineAssignment
  | marketDealStateDeferred
deriving DecidableEq

/-- Protocol constant `policy.SealRandomnessLookback` (chain finality), the
number of epochs looked back when sampling seal randomness. -/
def sealRandomnessLookback : Int := 900

/-- Chain head as consumed by `getTicket`: its height and an opaque tipset key. -/
structure TipSet where
  height : Int
  key : Nat
deriving DecidableEq

/-- Unsigned LEB128 encoding used inside Filecoin addresses. -/
def uvarint (n : Nat) : List Nat :=
  if n < 128 then [n] else (n % 128 + 128) :: uvarint (n / 128)
termination_by n
decreasing_by exact Nat.div_lt_self (by omega) (by norm_num)

/-- Modelled: `address.NewIDAddress` from go-address; fails for identifiers
at or above `2 ^ 63`.  The resulting address is represented by its actor id. -/
def newIDAddress (u : Nat) : Except GoErr Nat :=
  if u < 2 ^ 63 then .ok u
  else .error (.goError "getting miner address: invalid actor id")

/-- Modelled: `address.Address.MarshalCBOR` for an ID address — a CBOR byte
string (major type 2) wrapping the protocol byte 0 and the LEB128 id.
Writing into a byte buffer cannot fail, so the encoder is total. -/
def addressCBOR (idAddr : Nat) : List Nat :=
  (64 + (0 :: uvarint idAddr).length) :: 0 :: uvarint idAddr

/-- Sector reference handed to the SDR encoder (`storiface.SectorRef`). -/
structure SectorRef where
  miner : Nat
  number : Nat
  proofType : Int
deriving DecidableEq

/-- External collaborators of one `Do` invocation, made explicit: the two
database reads (already shaped by their SQL as in the source), the chain
API used by `getTicket`, the SDR encoder, and the final pipeline UPDATE
returning its affected row count. -/
structure Env where
  sectorRows : Except String (List SectorRow)
  pieceRows : Except String (List PieceRow)
  chainHead : Except String TipSet
  rand : Tag → Int → List Nat → Nat → Except String (List Nat)
  sdr : SectorRef → List Nat → Cid → Except String Unit
  exec : Int → Int → Int → List Nat → Except String Int

/-- Ticket resolution (`getTicket`, source lines 208-226): query the chain
head, subtract the seal randomness lookback from its height, and request
domain-separated randomness at that epoch with the CBOR-encoded miner
address as entropy and the head's tipset key. -/
def getTicket (env : Env) (maddr : Nat) : Except GoErr (List Nat × Int) :=
  match env.chainHead with
  | .error e => .error (.goError ("getting chain head: " ++ e))
  | .ok ts =>
    let ticketEpoch := ts.height - sealRandomnessLookback
    match env.rand Tag.sealRandomness ticketEpoch (addressCBOR maddr) ts.key with
    | .error e => .error (.goError ("getting randomness from tickets: " ++ e))
    | .ok r => .ok (r, ticketEpoch)

/-- Observable outcome of one `Do` invocation: the returned value or error,
whether the SDR encoding step was reached and succeeded, whether the final
pipeline UPDATE was executed, the row count that UPDATE reported (when it
ran and returned), and the commitment handed to the encoder (when reached). -/
structure DoRes where
  res : Except GoErr Bool
  sdrOk : Bool
  updated : Bool
  updatedRows : Option Int
  commD : Option Cid

/-- Task execution `Do` (source lines 67-206), with the blocking calls
factored through `Env`.  The `stillOwned` callback is part of the task
interface; the body mirrors the source, which never consults it. -/
def Do (env : Env) (stillOwned : Bool) : DoRes :=
  match env.sectorRows with
  | .error e => ⟨.error (.goError ("getting sector params: " ++ e)), false, false, none, none⟩
  | .ok sectorParamsArr =>
    match sectorParamsArr with
    | [sectorParams] =>
      match env.pieceRows with
      | .error e => ⟨.error (.goError ("getting pieces: " ++ e)), false, false, none, none⟩
      | .ok pieces =>
        match computeCommD sectorParams.regSealProof pieces with
        | .error e => ⟨.error e, false, false, none, none⟩
        | .ok commd =>
          match newIDAddress (u64 sectorParams.spId) with
          | .error e => ⟨.error e, false, false, none, none⟩
          | .ok maddr =>
            match getTicket env maddr with
            | .error e => ⟨.error e, false, false, none, none⟩
            | .ok (ticket, ticketEpoch) =>
              match env.sdr ⟨u64 sectorParams.spId, u64 sectorParams.sectorNumber,
                  sectorParams.regSealProof⟩ ticket commd with
              | .error e =>
                ⟨.error (.goError ("generating sdr: " ++ e)), false, false, none, some commd⟩
              | .ok _ =>
                match env.exec sectorParams.spId sectorParams.sectorNumber ticketEpoch ticket with
                | .error e =>
                  ⟨.error (.goError ("store sdr success: updating pipeline: " ++ e)),
                    true, true, none, some commd⟩
                | .ok n =>
                  if n = 1 then ⟨.ok true, true, true, some n, some commd⟩
                  else ⟨.error (.goError "store sdr success: updated an unexpected row count"),
                    true, true, some n, some commd⟩
    | _ => ⟨.error (.goError "expected 1 sector params"), false, false, none, none⟩

/-- Admission policy `CanAccept` (source lines 228-231): the Go code indexes
`ids[0]` unconditionally, so an empty candidate list panics with an
index-out-of-range runtime error; otherwise the first identifier is
returned. -/
def CanAccept (ids : List Nat) : Except GoErr (Option Nat) :=
  match ids with
  | [] => .error (.goPanic "runtime error: index out of range")
  | x :: _ => .ok (some x)

/-! ### Concrete environments used by witnesses and counterexamples -/

/-- Fully successful environment with an empty piece list. -/
def envAll : Env :=
  ⟨.ok [⟨1, 1, 0⟩], .ok [], .ok ⟨1000, 7⟩,
    fun _ _ _ _ => .ok [9], fun _ _ _ => .ok (), fun _ _ _ _ => .ok 1⟩

/-- Environment whose SDR encoding call fails (e.g. storage exhausted). -/
def envSdrFail : Env :=
  ⟨.ok [⟨1, 1, 0⟩], .ok [], .ok ⟨1000, 7⟩,
    fun _ _ _ _ => .ok [9], fun _ _ _ => .error "out of space", fun _ _ _ _ => .ok 1⟩

/-- Environment whose work-unit identifier matches no pipeline row. -/
def envNoRow : Env :=
  ⟨.ok [], .ok [], .ok ⟨1000, 7⟩,
    fun _ _ _ _ => .ok [9], fun _ _ _ => .ok (), fun _ _ _ _ => .ok 1⟩

/-- Environment whose final UPDATE reports two affected rows. -/
def envTwoRows : Env :=
  ⟨.ok [⟨1, 1, 0⟩], .ok [], .ok ⟨1000, 7⟩,
    fun _ _ _ _ => .ok [9], fun _ _ _ => .ok (), fun _ _ _ _ => .ok 2⟩

/-- Environment with a single well-formed piece whose index is 5, so the
piece indices are not contiguous starting at zero. -/
def envGapIndex : Env :=
  ⟨.ok [⟨1, 1, 0⟩], .ok [⟨5, "bafy", 1024, some 1016⟩], .ok ⟨1000, 7⟩,
    fun _ _ _ _ => .ok [9], fun _ _ _ => .ok (), fun _ _ _ _ => .ok 1⟩

/-- Environment with a piece row whose `data_raw_size` column is NULL. -/
def envNilRaw : Env :=
  ⟨.ok [⟨1, 1, 0⟩], .ok [⟨0, "bafy", 1024, none⟩], .ok ⟨1000, 7⟩,
    fun _ _ _ _ => .ok [9], fun _ _ _ => .ok (), fun _ _ _ _ => .ok 1⟩

/-- Environment whose single piece overflows the 2 KiB sector: its raw size
2033 exceeds the unpadded capacity 2032. -/
def envOverflow : Env :=
  ⟨.ok [⟨1, 1, 0⟩], .ok [⟨0, "bafy", 256, some 2033⟩], .ok ⟨1000, 7⟩,
    fun _ _ _ _ => .ok [9], fun _ _ _ => .ok (), fun _ _ _ _ => .ok 1⟩

/-! ### Claims -/

/-- C2: for an empty piece sequence the commitment computed by `Do` is the
well-known zero-piece commitment for the sector capacity derived from the
proof type, and the proof-type-parameterized aggregation function is not
invoked: the result is the `zeroPieceCommitment` constructor and is not an
aggregation of any piece-info sequence. -/
theorem C2_empty_pieces_zero_commitment (rsp : Int) (ssize : Nat)
    (hs : sectorSizeOf rsp = .ok ssize) :
    computeCommD rsp [] = .ok (zeroPieceCommitment (unpaddedOf ssize)) ∧
      ∀ (pt : Int) (infos : List PieceInfo),
        zeroPieceCommitment (unpaddedOf ssize) ≠ generateUnsealedCID pt infos := by
  constructor
  · unfold computeCommD
    rw [hs]
    simp
  · intro pt infos h
    exact Cid.noConfusion h

theorem C2_witness :
    computeCommD 0 [] = .ok (zeroPieceCommitment (unpaddedOf 2048)) ∧
      ∀ (pt : Int) (infos : List PieceInfo),
        zeroPieceCommitment (unpaddedOf 2048) ≠ generateUnsealedCID pt infos :=
  C2_empty_pieces_zero_commitment 0 2048 rfl

/-- C5: on a chain head `ts`, `getTicket` returns the epoch
`ts.height - sealRandomnessLookback` exactly, and the randomness it
returns is the one obtained from the chain API at the seal-randomness
domain-separation tag, at that looked-back epoch (not at the head height),
with the CBOR-encoded owner address as entropy and the head's tipset key. -/
theorem C5_ticket_epoch_lookback (env : Env) (maddr : Nat) (ts : TipSet)
    (r : List Nat) (ep : Int)
    (hts : env.chainHead = .ok ts)
    (hok : getTicket env maddr = .ok (r, ep)) :
    ep = ts.height - sealRandomnessLookback ∧
      env.rand Tag.sealRandomness (ts.height - sealRandomnessLookback)
        (addressCBOR maddr) ts.key = .ok r := by
  unfold getTicket at hok
  rw [hts] at hok
  simp only at hok
  cases h : env.rand Tag.sealRandomness (ts.height - sealRandomnessLookback)
      (addressCBOR maddr) ts.key with
  | error e => rw [h] at hok; cases hok
  | ok v =>
    rw [h] at hok
    simp only [Except.ok.injEq, Prod.mk.injEq] at hok
    obtain ⟨hv, hep⟩ := hok
    exact ⟨hep.symm, by rw [hv]⟩

theorem C5_witness :
    (100 : Int) = (1000 : Int) - sealRandomnessLookback ∧
      envAll.rand Tag.sealRandomness ((1000 : Int) - sealRandomnessLookback)
        (addressCBOR 1) 7 = .ok [9] :=
  C5_ticket_epoch_lookback envAll 1 ⟨1000, 7⟩ [9] 100 rfl rfl

/-- C6: `Do` returns an error on every unexpected row cardinality — when
the number of pipeline rows bound to the task identifier is not exactly
one at load, and when the final success UPDATE reports a row count other
than exactly one. -/
theorem C6_row_cardinality :
    (∀ (env : Env) (so : Bool) (arr : List SectorRow),
        env.sectorRows = .ok arr → arr.length ≠ 1 → (Do env so).res.isOk = false) ∧
    (∀ (env : Env) (so : Bool) (n : Int),
        (Do env so).updatedRows = some n → n ≠ 1 → (Do env so).res.isOk = false) := by
  constructor
  · intro env so arr h hlen
    unfold Do
    rw [h]
    match arr, hlen with
    | [], _ => rfl
    | [a], hlen => exact absurd rfl hlen
    | a :: b :: t, _ => rfl
  · intro env so n
    unfold Do
    repeat' split
    all_goals intro h hn
    all_goals simp_all
    all_goals rfl

theorem C6_witness :
    (Do envNoRow true).res.isOk = false ∧ (Do envTwoRows true).res.isOk = false :=
  ⟨C6_row_cardinality.1 envNoRow true [] rfl (by decide),
   C6_row_cardinality.2 envTwoRows true 2 rfl (by decide)⟩

/-- C7: whenever the encoding step has not succeeded — because `Do` failed
earlier at the record load, the piece load, the commitment computation, or
the ticket resolution, or because the encoding call itself failed — the
final pipeline UPDATE is never executed, so the sector-preparation record
(its work-unit assignment included) is left untouched. -/
theorem C7_no_write_without_encode_success (env : Env) (so : Bool)
    (h : (Do env so).sdrOk = false) : (Do env so).updated = false := by
  revert h
  unfold Do
  repeat' split
  all_goals simp

theorem C7_witness :
    (Do envSdrFail true).sdrOk = false ∧ (Do envSdrFail true).updated = false :=
  ⟨rfl, C7_no_write_without_encode_success envSdrFail true rfl⟩

/-- C8 counterexample: the claim asserts that when the ownership check
reports ownership lost, `Do` aborts without invoking the encoder and
without the final commit.  In the code the `stillOwned` callback is never
called: with ownership lost (`stillOwned` constantly false) and an
otherwise healthy environment, `Do` still invokes the encoder, performs
the final UPDATE and returns success. -/
theorem C8_counterexample :
    (Do envAll false).sdrOk = true ∧ (Do envAll false).updated = true ∧
      (Do envAll false).res = .ok true :=
  ⟨rfl, rfl, rfl⟩

/-- C8 amended: `Do` never consults the ownership check; its behaviour is
entirely independent of the `stillOwned` callback, so the encoding step
and the final durable commit proceed even when ownership was lost. -/
theorem C8_ownership_never_consulted (env : Env) (so so' : Bool) :
    Do env so = Do env so' := rfl

/-- C9 counterexample: the claim asserts that `CanAccept` on an empty
candidate list returns no selection without failing fatally; the code
indexes `ids[0]` unconditionally, so the empty list panics with an
index-out-of-range runtime error instead. -/
theorem C9_counterexample :
    CanAccept [] = .error (.goPanic "runtime error: index out of range") := rfl

/-- C9 amended: `CanAccept` on an empty candidate list panics
(index out of range); on a non-empty list it returns exactly the first
identifier, which is a member of the list, with no reordering. -/
theorem C9_first_candidate :
    CanAccept [] = .error (.goPanic "runtime error: index out of range") ∧
      ∀ (x : Nat) (rest : List Nat),
        CanAccept (x :: rest) = .ok (some x) ∧ x ∈ x :: rest :=
  ⟨rfl, fun x rest => ⟨rfl, List.mem_cons_self x rest⟩⟩

/-- C10: `Do` is total only under the unstated precondition that every
loaded piece row carries a non-null raw size: on an input whose piece row
has a NULL `data_raw_size`, `Do` dereferences a nil pointer — modelled as
a runtime panic — instead of returning an ordinary error. -/
theorem C10_nil_raw_size_panics :
    (Do envNilRaw true).res =
      .error (.goPanic "runtime error: invalid memory address or nil pointer dereference") := rfl

/-- Reindexing helper for C4: the layout loop never reads `pieceIndex`. -/
theorem layoutPieces_reindex (pieces : List PieceRow) (g : PieceRow → Int) :
    ∀ off, layoutPieces off (pieces.map (fun p => { p with pieceIndex := g p })) =
      layoutPieces off pieces := by
  induction pieces with
  | nil => intro off; rfl
  | cons p rest ih =>
    intro off
    simp only [List.map_cons, layoutPieces]
    simp only [ih]

/-- C4 counterexample: the claim asserts that every piece sequence whose
indices are not contiguous starting at zero makes the commitment
computation fail.  `envGapIndex` holds a single well-formed piece stored
at index 5, and `Do` succeeds on it, producing a commitment and
committing the result. -/
theorem C4_counterexample : (Do envGapIndex true).res = .ok true := rfl

/-- C4 amended: the code never validates piece indices; they only
determine the database ordering.  The commitment computation is invariant
under arbitrary rewriting of the stored indices, so non-contiguous
indices yield the same commitment as the contiguous relabelling rather
than an error. -/
theorem C4_index_ignored (rsp : Int) (pieces : List PieceRow) (g : PieceRow → Int) :
    computeCommD rsp (pieces.map (fun p => { p with pieceIndex := g p })) =
      computeCommD rsp pieces := by
  unfold computeCommD
  rw [List.length_map, layoutPieces_reindex]

/-! ### Arithmetic toolkit for the layout-capacity claims -/

theorem u64_natCast (m : Nat) (h : m < U64) : u64 ((m : Nat) : Int) = m := by
  unfold u64
  rw [Int.emod_eq_of_lt (Int.natCast_nonneg m) (by exact_mod_cast h)]
  exact Int.toNat_natCast m

theorem paddedOf_mul127 (a : Nat) : paddedOf (127 * a) = 128 * a := by
  unfold paddedOf
  rw [Nat.mul_div_cancel_left a (by norm_num : 0 < 127)]
  omega

theorem unpaddedOf_mul128 (b : Nat) : unpaddedOf (128 * b) = 127 * b := by
  unfold unpaddedOf
  rw [Nat.mul_div_cancel_left b (by norm_num : 0 < 128)]
  omega

/-- Equivalence of the Go two's-complement alignment computation with the
direct form: for a piece size dividing the word size, `-old % n` computed
in `uint64` equals `(n - old % n) % n`. -/
theorem wrappedToFill (old n : Nat) (hn : 0 < n) (hd : n ∣ U64) (hlt : old < U64) :
    ((U64 - old) % U64) % n = (n - old % n) % n := by
  rcases Nat.eq_zero_or_pos old with h0 | hpos
  · subst h0
    simp [Nat.mod_self]
  · have h1 : (U64 - old) % U64 = U64 - old := Nat.mod_eq_of_lt (by omega)
    rw [h1]
    have holdn : old % n < n := Nat.mod_lt _ hn
    have hle1 : old ≤ U64 := le_of_lt hlt
    have hle2 : old % n ≤ n := le_of_lt holdn
    zify [hle1, hle2]
    have hdz : (n : Int) ∣ (U64 : Int) := Int.natCast_dvd_natCast.mpr hd
    rw [Int.sub_emod, Int.emod_eq_zero_of_dvd hdz,
      Int.sub_emod (n : Int), Int.emod_self, Int.emod_emod_of_dvd _ dvd_rfl]

/-- Spec-side alignment: the padding inserted before a piece of padded
size `n` when the running unpadded offset is `off`. -/
def padFor (off n : Nat) : Nat :=
  if n = 0 then 0 else (n - paddedOf off % n) % n

/-- Spec-side reference offset: the exact (wrap-free) running unpadded
offset after laying out the given pieces, used to phrase validity of an
input layout. -/
def trueOff : Nat → List PieceRow → Nat
  | off, [] => off
  | off, p :: rest =>
    trueOff (off + unpaddedOf (padFor off (u64 p.pieceSize)) + u64 (p.dataRawSize.getD 0)) rest

theorem trueOff_le (pieces : List PieceRow) : ∀ off, off ≤ trueOff off pieces := by
  induction pieces with
  | nil => intro off; exact le_refl off
  | cons p rest ih =>
    intro off
    simp only [trueOff]
    refine le_trans ?_ (ih (off + unpaddedOf (padFor off (u64 p.pieceSize)) +
      u64 (p.dataRawSize.getD 0)))
    omega

/-- Spec-side validity of one declared piece: a parseable CID, a padded
size that is a power of two of at least 128 bytes (representable in the
int64 column), and a raw size equal to the unpadded size of the padded
size. -/
def ValidPiece (p : PieceRow) : Prop :=
  p.pieceCID ≠ "" ∧ ∃ k : Nat, k < 56 ∧ p.pieceSize = ((128 * 2 ^ k : Nat) : Int) ∧
    p.dataRawSize = some ((127 * 2 ^ k : Nat) : Int)

theorem sectorSize_shape {p : Int} {s : Nat} (h : sectorSizeOf p = .ok s) :
    ∃ m, m ≤ 29 ∧ s = 128 * 2 ^ m := by
  unfold sectorSizeOf at h
  split at h
  · split at h
    · exact ⟨4, by norm_num, by cases h; norm_num⟩
    · exact ⟨16, by norm_num, by cases h; norm_num⟩
    · exact ⟨22, by norm_num, by cases h; norm_num⟩
    · exact ⟨28, by norm_num, by cases h; norm_num⟩
    · exact ⟨29, by norm_num, by cases h; norm_num⟩
  · cases h

/-- Main layout invariant: on a valid piece list the wrapped loop of the
source runs without error, computes exactly the wrap-free reference
offset, and the emitted piece-info sizes account precisely for the padded
span between the initial and the final offset. -/
theorem layoutPieces_valid (pieces : List PieceRow) :
    ∀ off, (∀ p ∈ pieces, ValidPiece p) → 127 ∣ off → trueOff off pieces ≤ 2 ^ 62 →
      127 ∣ trueOff off pieces ∧
      ∃ infos, layoutPieces off pieces = .ok (trueOff off pieces, infos) ∧
        (infos.map Prod.fst).sum + paddedOf off = paddedOf (trueOff off pieces) := by
  induction pieces with
  | nil =>
    intro off _ h127 _
    exact ⟨h127, [], rfl, by simp [trueOff]⟩
  | cons p rest ih =>
    intro off hv h127 hbound
    obtain ⟨hcid, k, hk, hsz, hraw⟩ := hv p (List.mem_cons_self p rest)
    have hU : U64 = 18446744073709551616 := by norm_num [U64]
    have h2k : (2 : Nat) ^ k ≤ 36028797018963968 :=
      le_trans (Nat.pow_le_pow_right (by norm_num) (by omega : k ≤ 55)) (by norm_num)
    have h62 : (2 : Nat) ^ 62 = 4611686018427387904 := by norm_num
    have hnsz : u64 p.pieceSize = 128 * 2 ^ k := by
      rw [hsz, u64_natCast]
      omega
    have hnraw : u64 (p.dataRawSize.getD 0) = 127 * 2 ^ k := by
      rw [hraw]
      show u64 ((127 * 2 ^ k : Nat) : Int) = 127 * 2 ^ k
      rw [u64_natCast]
      omega
    have hn0 : 0 < 128 * 2 ^ k := by positivity
    have hnne : ¬ 128 * 2 ^ k = 0 := by omega
    have hndvd : (128 * 2 ^ k) ∣ U64 := by
      have h7 : (128 * 2 ^ k) = 2 ^ (k + 7) := by rw [pow_add]; ring
      rw [h7]
      exact pow_dvd_pow 2 (by omega : k + 7 ≤ 64)
    set t := padFor off (128 * 2 ^ k) with ht
    have hstep : trueOff off (p :: rest) =
        trueOff (off + unpaddedOf t + 127 * 2 ^ k) rest := by
      simp only [trueOff, hnsz, hnraw, ht]
    set off2 := off + unpaddedOf t + 127 * 2 ^ k with hoff2
    have hbound2 : trueOff off2 rest ≤ 2 ^ 62 := by
      rw [hoff2, ← hstep]
      exact hbound
    have hoff2le : off2 ≤ 2 ^ 62 := le_trans (trueOff_le rest off2) hbound2
    obtain ⟨a, ha⟩ := h127
    have hpoff : paddedOf off = 128 * a := by rw [ha, paddedOf_mul127]
    have hoffle : off ≤ 2 ^ 62 := by omega
    have hplt : paddedOf off < U64 := by
      unfold paddedOf
      omega
    have ht128 : 128 ∣ t := by
      rw [ht]
      unfold padFor
      rw [if_neg hnne]
      refine (Nat.dvd_mod_iff ⟨2 ^ k, rfl⟩).mpr ?_
      refine Nat.dvd_sub' ⟨2 ^ k, rfl⟩ ?_
      refine (Nat.dvd_mod_iff ⟨2 ^ k, rfl⟩).mpr ?_
      rw [hpoff]
      exact ⟨a, rfl⟩
    obtain ⟨b, hb⟩ := ht128
    have hub : unpaddedOf t = 127 * b := by rw [hb, unpaddedOf_mul128]
    have hparse : cidParse p.pieceCID = .ok (.raw p.pieceCID) := by
      unfold cidParse
      rw [if_neg hcid]
    have hXt : (128 * 2 ^ k - paddedOf off % (128 * 2 ^ k)) % (128 * 2 ^ k) = t := by
      rw [ht]
      unfold padFor
      rw [if_neg hnne]
    have hgrp : getRequiredPadding (paddedOf off % U64) (u64 p.pieceSize) =
        .ok (bitsDecomp t, t) := by
      rw [hnsz]
      unfold getRequiredPadding
      rw [if_neg hnne, Nat.mod_eq_of_lt hplt,
        wrappedToFill (paddedOf off) (128 * 2 ^ k) hn0 hndvd hplt, hXt]
      simp only [bitsDecomp_sum]
    have hoff1lt : off + unpaddedOf t < U64 := by omega
    have hoff2lt : off + unpaddedOf t + 127 * 2 ^ k < U64 := by omega
    have hv' : ∀ q ∈ rest, ValidPiece q := fun q hq => hv q (List.mem_cons_of_mem p hq)
    have h127' : 127 ∣ off2 := ⟨a + b + 2 ^ k, by omega⟩
    obtain ⟨hd127, rinfos, hrec, hsum⟩ := ih off2 hv' h127' hbound2
    have hpoff2 : paddedOf off2 = 128 * (a + b + 2 ^ k) := by
      rw [show off2 = 127 * (a + b + 2 ^ k) from by omega, paddedOf_mul127]
    refine ⟨hstep ▸ hd127, ?_⟩
    simp only [layoutPieces, hparse, hgrp, hraw]
    rw [show u64 ((127 * 2 ^ k : Nat) : Int) = 127 * 2 ^ k from by rw [u64_natCast]; omega]
    rw [Nat.mod_eq_of_lt hoff1lt, Nat.mod_eq_of_lt hoff2lt]
    rw [show off + unpaddedOf t + 127 * 2 ^ k = off2 from rfl]
    rw [hrec, hstep]
    refine ⟨_, rfl, ?_⟩
    simp only [List.map_append, List.sum_append, List.map_cons, List.sum_cons,
      List.map_map, Function.comp_def]
    have hfst : (bitsDecomp t).map
        (fun sz => ((sz, zeroPieceCommitment (unpaddedOf sz)) : PieceInfo).fst) =
        bitsDecomp t := by
      simp
    rw [hfst, bitsDecomp_sum]
    omega

/-- C1: for every valid non-empty piece sequence, the piece-info sequence
built by the commitment computation of `Do` — real pieces plus alignment
fillers plus trailing fillers — has total padded length exactly equal to
the sector capacity derived from the proof type. -/
theorem C1_piece_layout_fills_capacity (rsp : Int) (ssize : Nat) (pieces : List PieceRow)
    (hs : sectorSizeOf rsp = .ok ssize)
    (hne : pieces ≠ [])
    (hv : ∀ p ∈ pieces, ValidPiece p)
    (hcap : trueOff 0 pieces ≤ unpaddedOf ssize) :
    ∃ infos, computeCommD rsp pieces = .ok (generateUnsealedCID rsp infos) ∧
      (infos.map Prod.fst).sum = ssize := by
  obtain ⟨m, hm, hmval⟩ := sectorSize_shape hs
  have hcapU : unpaddedOf ssize = 127 * 2 ^ m := by rw [hmval, unpaddedOf_mul128]
  have h2m : (2 : Nat) ^ m ≤ 536870912 :=
    le_trans (Nat.pow_le_pow_right (by norm_num) hm) (by norm_num)
  have h62 : (2 : Nat) ^ 62 = 4611686018427387904 := by norm_num
  have hbound : trueOff 0 pieces ≤ 2 ^ 62 := by
    rw [hcapU] at hcap
    omega
  obtain ⟨h127F, infos, hlay, hsum⟩ := layoutPieces_valid pieces 0 hv (dvd_zero 127) hbound
  obtain ⟨A, hA⟩ := h127F
  have hp0 : paddedOf 0 = 0 := rfl
  rw [hp0] at hsum
  have hpF : paddedOf (trueOff 0 pieces) = 128 * A := by rw [hA, paddedOf_mul127]
  have hsub : (unpaddedOf ssize : Int) - (trueOff 0 pieces : Int) =
      ((unpaddedOf ssize - trueOff 0 pieces : Nat) : Int) := (Nat.cast_sub hcap).symm
  have hdvd : 127 ∣ (unpaddedOf ssize - trueOff 0 pieces) :=
    Nat.dvd_sub' (by rw [hcapU]; exact ⟨2 ^ m, rfl⟩) ⟨A, hA⟩
  have hfileq : fillersFromRem ((unpaddedOf ssize : Int) - (trueOff 0 pieces : Int)) =
      .ok ((bitsDecomp ((unpaddedOf ssize - trueOff 0 pieces) / 127)).map
        (fun b => 127 * b)) := by
    rw [hsub]
    unfold fillersFromRem
    rw [if_neg (not_lt.mpr (Int.natCast_nonneg _)), Int.toNat_natCast, if_pos hdvd]
  unfold computeCommD
  rw [hs]
  simp only [gt_iff_lt, List.length_pos.mpr hne, if_true, hlay, hfileq]
  refine ⟨_, rfl, ?_⟩
  have hR : 127 * ((unpaddedOf ssize - trueOff 0 pieces) / 127) =
      unpaddedOf ssize - trueOff 0 pieces := Nat.mul_div_cancel' hdvd
  simp only [List.map_append, List.sum_append, List.map_map, Function.comp_def]
  have hfil : ((bitsDecomp ((unpaddedOf ssize - trueOff 0 pieces) / 127)).map
      (fun b => (((paddedOf (127 * b), zeroPieceCommitment (127 * b)) : PieceInfo)).fst)).sum =
      128 * ((unpaddedOf ssize - trueOff 0 pieces) / 127) := by
    simp only [paddedOf_mul127]
    rw [sum_map_mul, bitsDecomp_sum]
  rw [hfil]
  omega

theorem C1_witness :
    ∃ infos, computeCommD 0 [⟨0, "b", 1024, some 1016⟩] = .ok (generateUnsealedCID 0 infos) ∧
      (infos.map Prod.fst).sum = 2048 :=
  C1_piece_layout_fills_capacity 0 2048 [⟨0, "b", 1024, some 1016⟩] rfl (by decide)
    (fun p hp => by
      rw [List.mem_singleton] at hp
      subst hp
      exact ⟨by decide, 3, by norm_num, by norm_num, by norm_num⟩)
    (by decide)

/-- C3: when the loaded pieces overflow the sector capacity — the running
unpadded offset computed by the layout loop ends up beyond the sector's
unpadded size — the commitment computation inside `Do` fails with an
error, `Do` surfaces it, and the sector-preparation record is not written
(no truncation or wrap-around to a successful commit). -/
theorem C3_overflow_errors (env : Env) (so : Bool) (sp : SectorRow)
    (pieces : List PieceRow) (ssize off : Nat) (infos : List PieceInfo)
    (hrows : env.sectorRows = .ok [sp])
    (hpieces : env.pieceRows = .ok pieces)
    (hne : pieces ≠ [])
    (hss : sectorSizeOf sp.regSealProof = .ok ssize)
    (hlay : layoutPieces 0 pieces = .ok (off, infos))
    (hover : (unpaddedOf ssize : Int) < (off : Int)) :
    (Do env so).res.isOk = false ∧ (Do env so).updated = false := by
  have hfileq : fillersFromRem ((unpaddedOf ssize : Int) - (off : Int)) =
      .error (.goError "failed to calculate the final padding: negative remainder") := by
    unfold fillersFromRem
    rw [if_pos (by omega : (unpaddedOf ssize : Int) - (off : Int) < 0)]
  have hcomm : computeCommD sp.regSealProof pieces =
      .error (.goError "failed to calculate the final padding: negative remainder") := by
    unfold computeCommD
    rw [hss]
    simp only [gt_iff_lt, List.length_pos.mpr hne, if_true, hlay, hfileq]
  unfold Do
  rw [hrows]
  simp [hpieces, hcomm, Except.isOk, Except.toBool]

theorem C3_witness :
    (Do envOverflow true).res.isOk = false ∧ (Do envOverflow true).updated = false :=
  C3_overflow_errors envOverflow true ⟨1, 1, 0⟩ [⟨0, "bafy", 256, some 2033⟩] 2048 2033
    [(256, .raw "bafy")] rfl rfl (by decide) rfl rfl (by decide)
